import Mathlib

/-
Verification of the data-preparation and evaluation pipeline of the
Earnings-Manipulator repository (two near-duplicate dashboards,
src/app.py and src/main.py).  The third-party modelling calls
(scikit-learn metrics, StandardScaler, train_test_split, GridSearchCV,
XGBoost) are embedded from their documented semantics; the glue logic
(column validation, target mapping, scaled-versus-raw dispatch, the
single-class guard, the SHAP session guard) is embedded line by line
from the two source files.  Numbers are modelled by the rationals.
-/

namespace EarningsManip

/-! ## Classification metrics (sklearn.metrics, binary case)

Labels are naturals (0 = negative, 1 = positive), predicted
positive-class probabilities are rationals. -/

/-- Number of index pairs where truth and prediction agree
(sklearn accuracy_score numerator). -/
def matchCount (yt yp : List ℕ) : ℕ :=
  (yt.zip yp).countP (fun q => q.1 == q.2)

/-- accuracy_score: fraction of agreeing positions over the length of
the truth vector. -/
def accuracy_score (yt yp : List ℕ) : ℚ :=
  (matchCount yt yp : ℚ) / (yt.length : ℚ)

/-- True positives: truth 1 and prediction 1. -/
def tpCount (yt yp : List ℕ) : ℕ :=
  (yt.zip yp).countP (fun q => q.1 == 1 && q.2 == 1)

/-- False positives: truth not 1 and prediction 1. -/
def fpCount (yt yp : List ℕ) : ℕ :=
  (yt.zip yp).countP (fun q => q.1 != 1 && q.2 == 1)

/-- False negatives: truth 1 and prediction not 1. -/
def fnCount (yt yp : List ℕ) : ℕ :=
  (yt.zip yp).countP (fun q => q.1 == 1 && q.2 != 1)

/-- precision_score with a zero denominator producing 0.  This is the
value for both variants: main.py passes zero_division equal to 0 and
the app.py default also returns 0 (with a console warning). -/
def precision_score (yt yp : List ℕ) : ℚ :=
  if tpCount yt yp + fpCount yt yp = 0 then 0
  else (tpCount yt yp : ℚ) / ((tpCount yt yp : ℚ) + (fpCount yt yp : ℚ))

/-- recall_score with a zero denominator producing 0. -/
def recall_score (yt yp : List ℕ) : ℚ :=
  if tpCount yt yp + fnCount yt yp = 0 then 0
  else (tpCount yt yp : ℚ) / ((tpCount yt yp : ℚ) + (fnCount yt yp : ℚ))

/-- f1_score as sklearn computes it, 2TP / (2TP + FP + FN), with a zero
denominator producing 0. -/
def f1_score (yt yp : List ℕ) : ℚ :=
  if 2 * tpCount yt yp + fpCount yt yp + fnCount yt yp = 0 then 0
  else (2 * (tpCount yt yp : ℚ)) /
    (2 * (tpCount yt yp : ℚ) + (fpCount yt yp : ℚ) + (fnCount yt yp : ℚ))

/-- Probabilities attached to positive rows of the truth vector. -/
def posProbs (yt : List ℕ) (pr : List ℚ) : List ℚ :=
  ((yt.zip pr).filter (fun q => q.1 == 1)).map (fun q => q.2)

/-- Probabilities attached to negative rows of the truth vector. -/
def negProbs (yt : List ℕ) (pr : List ℚ) : List ℚ :=
  ((yt.zip pr).filter (fun q => q.1 != 1)).map (fun q => q.2)

/-- Score of one positive/negative pair in the ROC-AUC statistic:
1 when the positive row got the larger probability, one half on a tie,
0 otherwise. -/
def pairScore (p n : ℚ) : ℚ :=
  if n < p then 1 else if p = n then 1 / 2 else 0

/-- Sum of pair scores of one positive probability against every
negative probability. -/
def aucRowSum (p : ℚ) (ns : List ℚ) : ℚ :=
  (ns.map (pairScore p)).sum

/-- Sum of pair scores over all positive/negative pairs. -/
def aucSum (ps ns : List ℚ) : ℚ :=
  (ps.map (fun p => aucRowSum p ns)).sum

/-- The ROC-AUC statistic: the normalized Mann-Whitney count of
correctly ordered positive/negative probability pairs. -/
def aucValue (yt : List ℕ) (pr : List ℚ) : ℚ :=
  aucSum (posProbs yt pr) (negProbs yt pr) /
    (((posProbs yt pr).length : ℚ) * ((negProbs yt pr).length : ℚ))

/-- roc_auc_score: raises (none) when the truth vector holds fewer than
two distinct values, exactly the sklearn single-class ValueError;
otherwise the AUC statistic. -/
def roc_auc_score (yt : List ℕ) (pr : List ℚ) : Option ℚ :=
  if yt.dedup.length ≤ 1 then none else some (aucValue yt pr)

/-! ## Metric records and the two evaluation helpers -/

/-- Metric record of one model, spec section 3: accuracy, precision,
recall, F1 and area-under-ROC. -/
structure MetricRecord where
  accuracy : ℚ
  precision : ℚ
  recallM : ℚ
  f1 : ℚ
  rocAuc : ℚ
deriving DecidableEq, Repr

/-- Record shared by the two evaluation helpers once the AUC entry is
known. -/
def baseRecord (yt yp : List ℕ) (auc : ℚ) : MetricRecord :=
  ⟨accuracy_score yt yp, precision_score yt yp, recall_score yt yp,
    f1_score yt yp, auc⟩

/-- Core of evaluate_model in src/main.py lines 44 to 50: the four
threshold metrics plus the guarded AUC entry, which is the sklearn
roc_auc_score when the truth vector has more than one distinct value
and 0 otherwise.  The result is none exactly when an inner sklearn call
raises, which under the guard never happens. -/
def evalWith (yt yp : List ℕ) (pr : List ℚ) : Option MetricRecord :=
  if 1 < yt.dedup.length then
    (roc_auc_score yt pr).map (baseRecord yt yp)
  else some (baseRecord yt yp 0)

/-- Classifier as the pipeline sees it: a black-box predict method and
an optional predict_proba method (positive-class column). -/
structure Classifier where
  predict : List (List ℚ) → List ℕ
  predictProba : Option (List (List ℚ) → List ℚ)

/-- Probability vector evaluate_model builds in src/main.py line 42:
the positive-class column of predict_proba when the model has one, an
all-zeros vector of the length of the prediction vector otherwise. -/
def probVec (m : Classifier) (Xtest : List (List ℚ)) : List ℚ :=
  match m.predictProba with
  | some f => f Xtest
  | none => List.replicate (m.predict Xtest).length 0

/-- evaluate_model of src/main.py lines 40 to 50. -/
def evaluate_model (m : Classifier) (Xtest : List (List ℚ))
    (ytest : List ℕ) : Option MetricRecord :=
  evalWith ytest (m.predict Xtest) (probVec m Xtest)

/-- Metric row of src/app.py evaluate, which also carries the model
name. -/
structure AppMetricRecord where
  model : String
  accuracy : ℚ
  precision : ℚ
  recallM : ℚ
  f1 : ℚ
  rocAuc : ℚ
deriving DecidableEq, Repr

/-- evaluate of src/app.py lines 37 to 45: the five metrics with an
unguarded roc_auc_score call.  The result is none exactly when
roc_auc_score raises the single-class ValueError, which aborts the
dashboard run. -/
def appEvaluate (name : String) (yt yp : List ℕ) (pr : List ℚ) :
    Option AppMetricRecord :=
  (roc_auc_score yt pr).map (fun a =>
    ⟨name, accuracy_score yt yp, precision_score yt yp,
      recall_score yt yp, f1_score yt yp, a⟩)

/-! ## Input Validator (spec section 4.1)

Required columns and the two validation shapes: src/main.py checks
membership of every required column and prints one message listing all
of them; src/app.py lets the pandas column access raise a KeyError that
names the columns the access missed. -/

/-- The eight feature columns, src/app.py line 57 and src/main.py
line 62. -/
def feature_cols : List String :=
  ["DSRI", "GMI", "AQI", "SGI", "DEPI", "SGAI", "ACCR", "LEVI"]

/-- The target column, src/main.py line 63. -/
def target_col : String := "Manipulator"

/-- All nine required columns. -/
def required_cols : List String := feature_cols ++ [target_col]

/-- The required columns absent from an uploaded frame. -/
def missingCols (cols : List String) : List String :=
  required_cols.filter (fun c => !(cols.contains c))

/-- Column check of src/main.py line 66. -/
def mainColumnsOk (cols : List String) : Bool :=
  feature_cols.all (fun c => cols.contains c) && cols.contains target_col

/-- Columns named by the error message of src/main.py line 156: the
message interpolates the whole feature list and the target, never the
missing subset. -/
def mainErrorNames : List String := feature_cols ++ [target_col]

/-- Columns named by the KeyError surfaced in src/app.py line 75: the
feature-frame access at line 58 raises first and names the missing
feature columns; otherwise the target access at line 59 raises and
names the target. -/
def appErrorNames (cols : List String) : List String :=
  if (feature_cols.filter (fun c => !(cols.contains c))).isEmpty
  then [target_col] else feature_cols.filter (fun c => !(cols.contains c))

/-! ## Target mapping (spec section 4.1, second half) -/

/-- Cell of the target column: pandas object cells are strings, numeric
cells are rationals. -/
inductive Cell
  | strVal (s : String)
  | numVal (q : ℚ)
deriving DecidableEq, Repr

/-- The target column with its pandas dtype: object or numeric. -/
inductive TargetColumn
  | objCol (vals : List String)
  | numCol (vals : List ℚ)
deriving DecidableEq, Repr

/-- Lookup in the literal dict of the map call: "No" to 0 and "Yes"
to 1, anything else absent (pandas maps an absent key to NaN, modelled
as none). -/
def yesNoMap (s : String) : Option ℚ :=
  if s = "No" then some 0 else if s = "Yes" then some 1 else none

/-- Cells of the target column. -/
def cellsOf : TargetColumn → List Cell
  | .objCol vs => vs.map .strVal
  | .numCol vs => vs.map .numVal

/-- Lookup of one cell in the string-keyed dict: a numeric cell equals
no key, so it maps to NaN (none). -/
def mapDictLookup : Cell → Option ℚ
  | .strVal s => yesNoMap s
  | .numVal _ => none

/-- Target mapping of src/app.py line 59: the map call is applied to
the column unconditionally, whatever its dtype. -/
def appMapTarget (t : TargetColumn) : List (Option ℚ) :=
  (cellsOf t).map mapDictLookup

/-- Target mapping of src/main.py lines 70 to 73: the map call is
applied only when the dtype is object; a numeric column passes through
unchanged. -/
def mainMapTarget (t : TargetColumn) : List (Option ℚ) :=
  match t with
  | .objCol vs => vs.map yesNoMap
  | .numCol vs => vs.map (fun q => some q)

/-! ## Split stage (spec section 4.2)

Both variants call train_test_split with stratify and the literal
random_state 42.  The library shuffle is a black box; it is embedded as
a deterministic pseudo-random rotation of each class block derived from
the seed, which is the contract the code relies on: the selection is a
function of the data, the fraction and the seed alone. -/

/-- Result of one train_test_split call. -/
structure SplitResult where
  XTrain : List (List ℚ)
  XTest : List (List ℚ)
  yTrain : List ℕ
  yTest : List ℕ
deriving DecidableEq, Repr

/-- Ceiling of a nonnegative rational as a natural number. -/
def ceilNat (q : ℚ) : ℕ :=
  if q.num ≤ 0 then 0 else (q.num.toNat + q.den - 1) / q.den

/-- Rotation used as the deterministic stand-in for the seeded library
shuffle. -/
def rotL (l : List ℕ) (k : ℕ) : List ℕ :=
  if l.isEmpty then l else l.drop (k % l.length) ++ l.take (k % l.length)

/-- Row indices carrying one class label. -/
def idxOfClass (y : List ℕ) (c : ℕ) : List ℕ :=
  (List.range y.length).filter (fun i => y.getD i 0 == c)

/-- Test indices of the stratified split: per class, a seeded
pseudo-random selection of a test fraction of that class block. -/
def testIndices (y : List ℕ) (testSize : ℚ) (randomState : ℕ) : List ℕ :=
  y.dedup.flatMap (fun c =>
    let idxs := idxOfClass y c
    (rotL idxs randomState).take (ceilNat (testSize * (idxs.length : ℚ))))

/-- Embedding of sklearn train_test_split with stratify: a pure
function of the feature matrix, the label vector, the test fraction and
random_state. -/
def trainTestSplit (X : List (List ℚ)) (y : List ℕ) (testSize : ℚ)
    (randomState : ℕ) : SplitResult :=
  let te := testIndices y testSize randomState
  let tr := (List.range y.length).filter (fun i => !(te.contains i))
  ⟨tr.map (fun i => X.getD i []), te.map (fun i => X.getD i []),
    tr.map (fun i => y.getD i 0), te.map (fun i => y.getD i 0)⟩

/-- The split call as both files write it (src/app.py lines 65 to 67,
src/main.py line 77): random_state is the literal 42. -/
def splitStage (X : List (List ℚ)) (y : List ℕ) (testSize : ℚ) :
    SplitResult :=
  trainTestSplit X y testSize 42

/-! ## Scaler (spec sections 3 and 4.2)

StandardScaler from its documented semantics: fit stores the per-column
mean and population variance of its input; transform centers by the
stored mean and divides by the square root of the stored variance.  A
transformed entry is kept in the exact symbolic form (centered value,
variance), denoting centered divided by the square root of the variance
(centered itself when the variance is zero); downstream stages treat
scaled features as opaque inputs to black-box models, so no claim
depends on the numeric value. -/

/-- Fitted state of StandardScaler. -/
structure ScalerState where
  mean : List ℚ
  variance : List ℚ
deriving DecidableEq, Repr

/-- Transformed entry in exact form. -/
structure StdVal where
  centered : ℚ
  variance : ℚ
deriving DecidableEq, Repr

/-- Column j of a row-major matrix. -/
def columnOf (X : List (List ℚ)) (j : ℕ) : List ℚ :=
  X.map (fun row => row.getD j 0)

/-- Number of feature columns of a matrix. -/
def nCols (X : List (List ℚ)) : ℕ := (X.headD []).length

/-- Mean of a list of rationals. -/
def meanQ (l : List ℚ) : ℚ := l.sum / (l.length : ℚ)

/-- Population variance of a list of rationals (StandardScaler uses
ddof 0). -/
def varQ (l : List ℚ) : ℚ :=
  ((l.map (fun x => (x - meanQ l) ^ 2)).sum) / (l.length : ℚ)

/-- StandardScaler fit: the state is computed from the argument matrix
alone. -/
def fitScaler (X : List (List ℚ)) : ScalerState :=
  ⟨(List.range (nCols X)).map (fun j => meanQ (columnOf X j)),
    (List.range (nCols X)).map (fun j => varQ (columnOf X j))⟩

/-- StandardScaler transform with a fitted state: center each entry by
the stored mean of its column and attach the stored variance. -/
def transformScaler (s : ScalerState) (X : List (List ℚ)) :
    List (List StdVal) :=
  X.map (fun row => (List.range s.mean.length).map (fun j =>
    ⟨row.getD j 0 - s.mean.getD j 0, s.variance.getD j 0⟩))

/-- Output of the scaling block (src/app.py lines 70 to 72, src/main.py
lines 80 to 82): fit on the train partition only, transform both
partitions with the one fitted state. -/
structure ScaleStageOutput where
  scaler : ScalerState
  trainScaled : List (List StdVal)
  testScaled : List (List StdVal)
deriving DecidableEq, Repr

/-- The scaling block itself. -/
def scaleStage (Xtr Xte : List (List ℚ)) : ScaleStageOutput :=
  let s := fitScaler Xtr
  ⟨s, transformScaler s Xtr, transformScaler s Xte⟩

/-! ## Model bench dispatch (spec section 4.3) -/

/-- The five benched model families. -/
inductive Family
  | svm
  | knn
  | nb
  | ada
  | xgbF
deriving DecidableEq, Repr

/-- Display name of a family, the dict keys of src/main.py lines 91 to
97. -/
def familyName : Family → String
  | .svm => "SVM"
  | .knn => "KNN"
  | .nb => "Naive Bayes"
  | .ada => "AdaBoost"
  | .xgbF => "XGBoost"

/-- Which of the two partition pairs a model consumes. -/
inductive DataPart
  | scaledPart
  | rawPart
deriving DecidableEq, Repr

/-- Partitions one family is fit on and evaluated against. -/
structure FitEval where
  fitOn : DataPart
  evalOn : DataPart
deriving DecidableEq, Repr

/-- Dispatch of src/app.py lines 85 to 109, transcribed block by block:
the SVM block fits and predicts on the scaled matrices, the KNN block
likewise; the Naive Bayes, AdaBoost and XGBoost blocks fit and predict
on the raw matrices. -/
def appFitEval : Family → FitEval
  | .svm => ⟨.scaledPart, .scaledPart⟩
  | .knn => ⟨.scaledPart, .scaledPart⟩
  | .nb => ⟨.rawPart, .rawPart⟩
  | .ada => ⟨.rawPart, .rawPart⟩
  | .xgbF => ⟨.rawPart, .rawPart⟩

/-- Dispatch of the loop in src/main.py lines 100 to 107: the branch
test is membership of the display name in the literal list. -/
def mainFitEval (f : Family) : FitEval :=
  if ["SVM", "KNN"].contains (familyName f) then
    ⟨.scaledPart, .scaledPart⟩
  else ⟨.rawPart, .rawPart⟩

/-! ## Tuner (spec section 4.4) -/

/-- One XGBoost hyperparameter combination of the grid. -/
structure XGBParams where
  n_estimators : ℕ
  learning_rate : ℚ
  max_depth : ℕ
deriving DecidableEq, Repr

/-- Cartesian product of the grid in the iteration order of sklearn
ParameterGrid (keys sorted alphabetically, the last varying fastest):
learning_rate outermost, then max_depth, then n_estimators. -/
def gridCandidates (lrs : List ℚ) (mds nes : List ℕ) : List XGBParams :=
  lrs.flatMap (fun l => mds.flatMap (fun d => nes.map (fun n => ⟨n, l, d⟩)))

/-- The grid of src/app.py lines 123 to 127. -/
def appParamGrid : List XGBParams :=
  gridCandidates [5 / 100, 1 / 10] [3, 4] [100, 200]

/-- The grid of src/main.py lines 123 to 127. -/
def mainParamGrid : List XGBParams :=
  gridCandidates [1 / 100, 1 / 10] [3, 4] [100, 200]

/-- Cross-validation setting of a GridSearchCV call. -/
structure GridSearchConfig where
  cv : ℕ
  scoring : String
deriving DecidableEq, Repr

/-- GridSearchCV arguments of src/app.py line 130. -/
def appGridConfig : GridSearchConfig := ⟨3, "roc_auc"⟩

/-- GridSearchCV arguments of src/main.py line 130. -/
def mainGridConfig : GridSearchConfig := ⟨3, "roc_auc"⟩

/-- A fitted XGBoost model as a black box: the combination it was built
with and the data it was fit on. -/
structure FittedXGB where
  params : XGBParams
  trainX : List (List ℚ)
  trainY : List ℕ
deriving DecidableEq, Repr

/-- Black-box XGBoost fit. -/
def fitXGB (p : XGBParams) (X : List (List ℚ)) (y : List ℕ) :
    FittedXGB :=
  ⟨p, X, y⟩

/-- Argmax selection of GridSearchCV: the first candidate attaining the
highest mean cross-validation score (numpy argmax keeps the first
maximum). -/
def selectBest (score : XGBParams → ℚ) : List XGBParams → Option XGBParams
  | [] => none
  | c :: cs => some (cs.foldl (fun b d => if score b < score d then d else b) c)

/-- What a GridSearchCV fit reports. -/
structure GridSearchOutput where
  best_params : XGBParams
  best_estimator : FittedXGB
deriving DecidableEq, Repr

/-- GridSearchCV fit with refit (the sklearn default, in force in both
files): score every candidate of the grid by mean cross-validation
score, select the first maximizer, and refit a final model on the whole
training partition with the winning combination. -/
def gridSearchFit (grid : List XGBParams) (score : XGBParams → ℚ)
    (X : List (List ℚ)) (y : List ℕ) : Option GridSearchOutput :=
  (selectBest score grid).map (fun p => ⟨p, fitXGB p X y⟩)

/-! ## Explainer adapter (spec section 4.5, src/app.py lines 144 to
164) -/

/-- Elements the SHAP section renders. -/
inductive UIElem
  | warnMsg (s : String)
  | shapChart (kind : String) (model : FittedXGB)
deriving DecidableEq, Repr

/-- The warning of src/app.py line 164. -/
def shapWarning : String :=
  "Please run Hyperparameter Tuning first to generate the best model for SHAP analysis."

/-- The SHAP section of src/app.py: with a retained best model and the
checkbox ticked it renders the bar summary chart and the beeswarm
chart from that model; with no retained model it renders the warning
and nothing else, and the script keeps running. -/
def shapSection (bestModel : Option FittedXGB) (showPlot : Bool) :
    List UIElem :=
  match bestModel with
  | some m =>
      if showPlot then
        [.shapChart ("bar") m, .shapChart ("beeswarm") m]
      else []
  | none => [.warnMsg shapWarning]

/-- Session update of src/app.py line 142: the tuned best estimator is
retained as the best model. -/
def sessionAfterTuning (out : GridSearchOutput) : Option FittedXGB :=
  some out.best_estimator

/-! ## Pipeline skeletons for the halt-on-missing-columns claims -/

/-- Outcome of the src/main.py worth of preprocessing: either the
validated run proceeds to the split, or the script shows one error
message and nothing after the check runs. -/
inductive MainOutcome
  | proceeded (split : SplitResult)
  | halted (message : List String)
deriving DecidableEq, Repr

/-- Preprocessing of src/main.py lines 66 to 156: the column check
gates everything; the else branch prints the message naming
mainErrorNames and no split, scaling or training happens. -/
def mainPipeline (cols : List String) (X : List (List ℚ)) (y : List ℕ)
    (testSize : ℚ) : MainOutcome :=
  if mainColumnsOk cols then .proceeded (splitStage X y testSize)
  else .halted mainErrorNames

/-- Preprocessing of src/app.py lines 56 to 76: the column accesses
run before the split inside the try block; a KeyError jumps to the
except block, which shows the missing names and stops the script. -/
def appPipeline (cols : List String) (X : List (List ℚ)) (y : List ℕ)
    (testSize : ℚ) : Except (List String) SplitResult :=
  if (missingCols cols).isEmpty then .ok (splitStage X y testSize)
  else .error (appErrorNames cols)

/-! ## Predicates and concrete instances used by the statements -/

/-- Membership in the closed unit interval. -/
def unitI (q : ℚ) : Prop := 0 ≤ q ∧ q ≤ 1

/-- All five values of a metric record lie in the unit interval. -/
def recordUnit (r : MetricRecord) : Prop :=
  unitI r.accuracy ∧ unitI r.precision ∧ unitI r.recallM ∧
    unitI r.f1 ∧ unitI r.rocAuc

/-- All five values of an app.py metric row lie in the unit
interval. -/
def appRecordUnit (r : AppMetricRecord) : Prop :=
  unitI r.accuracy ∧ unitI r.precision ∧ unitI r.recallM ∧
    unitI r.f1 ∧ unitI r.rocAuc

/-- Concrete classifier for instantiating the theorems: predicts 1 for
every row, with probability 1 for every row. -/
def allOnesClassifier : Classifier :=
  ⟨fun X => List.replicate X.length 1,
    some (fun X => List.replicate X.length 1)⟩

/-- Concrete classifier without a probability method. -/
def noProbaClassifier : Classifier :=
  ⟨fun X => List.replicate X.length 0, none⟩

/-- Concrete column list with exactly the feature column DSRI
absent. -/
def colsMissingDSRI : List String :=
  ["GMI", "AQI", "SGI", "DEPI", "SGAI", "ACCR", "LEVI", "Manipulator"]

/-! ## Helper lemmas: bounds of the metric values -/

/-- A quotient of a nonnegative numerator by a larger denominator lies
in the unit interval (including the degenerate zero-denominator
convention of the rationals). -/
theorem div_unit (a b : ℚ) (h0 : 0 ≤ a) (hab : a ≤ b) : unitI (a / b) := by
  have hb : 0 ≤ b := le_trans h0 hab
  rcases lt_or_eq_of_le hb with hb1 | hb1
  · exact ⟨div_nonneg h0 hb, (div_le_one hb1).mpr hab⟩
  · rw [← hb1] at hab
    have ha : a = 0 := le_antisymm hab h0
    rw [ha, zero_div]
    exact ⟨le_refl 0, zero_le_one⟩

/-- A sum of list entries bounded in an interval from 0 to c is bounded
by the length times c. -/
theorem sum_bounded (l : List ℚ) (c : ℚ)
    (h : ∀ x ∈ l, 0 ≤ x ∧ x ≤ c) :
    0 ≤ l.sum ∧ l.sum ≤ (l.length : ℚ) * c := by
  induction l with
  | nil => simp
  | cons a t ih =>
      have ha := h a (List.mem_cons_self a t)
      have ht := ih (fun x hx => h x (List.mem_cons_of_mem a hx))
      constructor
      · simpa using add_nonneg ha.1 ht.1
      · simp only [List.sum_cons, List.length_cons]
        push_cast
        linarith [ha.2, ht.2]

/-- The score of one pair is in the unit interval. -/
theorem pairScore_unit (p n : ℚ) : unitI (pairScore p n) := by
  unfold pairScore unitI
  split
  · exact ⟨zero_le_one, le_refl 1⟩
  · split
    · constructor <;> norm_num
    · exact ⟨le_refl 0, zero_le_one⟩

/-- The row sum of pair scores is between 0 and the number of negative
rows. -/
theorem aucRowSum_bounds (p : ℚ) (ns : List ℚ) :
    0 ≤ aucRowSum p ns ∧ aucRowSum p ns ≤ (ns.length : ℚ) := by
  have h := sum_bounded (ns.map (pairScore p)) 1
    (by intro x hx
        rcases List.mem_map.mp hx with ⟨n, _, rfl⟩
        exact pairScore_unit p n)
  unfold aucRowSum
  exact ⟨h.1, by simpa [List.length_map] using h.2⟩

/-- The total sum of pair scores is between 0 and the number of
pairs. -/
theorem aucSum_bounds (ps ns : List ℚ) :
    0 ≤ aucSum ps ns ∧
      aucSum ps ns ≤ (ps.length : ℚ) * (ns.length : ℚ) := by
  have h := sum_bounded (ps.map (fun p => aucRowSum p ns)) (ns.length : ℚ)
    (by intro x hx
        rcases List.mem_map.mp hx with ⟨p, _, rfl⟩
        exact aucRowSum_bounds p ns)
  unfold aucSum
  exact ⟨h.1, by simpa [List.length_map] using h.2⟩

/-- The AUC statistic is always in the unit interval. -/
theorem aucValue_unit (yt : List ℕ) (pr : List ℚ) :
    unitI (aucValue yt pr) := by
  have h := aucSum_bounds (posProbs yt pr) (negProbs yt pr)
  exact div_unit _ _ h.1 h.2

/-- Accuracy is in the unit interval. -/
theorem accuracy_unit (yt yp : List ℕ) : unitI (accuracy_score yt yp) := by
  unfold accuracy_score
  apply div_unit
  · positivity
  · have h1 : matchCount yt yp ≤ (yt.zip yp).length :=
      List.countP_le_length _
    have h2 : (yt.zip yp).length ≤ yt.length := by
      rw [List.length_zip]
      exact Nat.min_le_left _ _
    exact_mod_cast le_trans h1 h2

/-- Precision is in the unit interval. -/
theorem precision_unit (yt yp : List ℕ) : unitI (precision_score yt yp) := by
  unfold precision_score
  split
  · exact ⟨le_refl 0, zero_le_one⟩
  · exact div_unit _ _ (by positivity) (le_add_of_nonneg_right (by positivity))

/-- Recall is in the unit interval. -/
theorem recall_unit (yt yp : List ℕ) : unitI (recall_score yt yp) := by
  unfold recall_score
  split
  · exact ⟨le_refl 0, zero_le_one⟩
  · exact div_unit _ _ (by positivity) (le_add_of_nonneg_right (by positivity))

/-- F1 is in the unit interval. -/
theorem f1_unit (yt yp : List ℕ) : unitI (f1_score yt yp) := by
  unfold f1_score
  split
  · exact ⟨le_refl 0, zero_le_one⟩
  · apply div_unit _ _ (by positivity)
    have hfp : (0 : ℚ) ≤ (fpCount yt yp : ℚ) := by positivity
    have hfn : (0 : ℚ) ≤ (fnCount yt yp : ℚ) := by positivity
    linarith

/-- roc_auc_score succeeds with the AUC statistic when the truth vector
has at least two distinct values. -/
theorem roc_auc_some (yt : List ℕ) (pr : List ℚ)
    (h : 1 < yt.dedup.length) :
    roc_auc_score yt pr = some (aucValue yt pr) := by
  unfold roc_auc_score
  rw [if_neg (by omega)]

/-- roc_auc_score raises on a truth vector with at most one distinct
value. -/
theorem roc_auc_none (yt : List ℕ) (pr : List ℚ)
    (h : yt.dedup.length ≤ 1) :
    roc_auc_score yt pr = none := by
  unfold roc_auc_score
  rw [if_pos h]

/-- The guarded evaluation core on a single-class truth vector: record
with AUC entry 0. -/
theorem evalWith_single (yt yp : List ℕ) (pr : List ℚ)
    (h : yt.dedup.length ≤ 1) :
    evalWith yt yp pr = some (baseRecord yt yp 0) := by
  unfold evalWith
  rw [if_neg (by omega)]

/-- The guarded evaluation core on a two-class truth vector: record
with the AUC statistic. -/
theorem evalWith_multi (yt yp : List ℕ) (pr : List ℚ)
    (h : 1 < yt.dedup.length) :
    evalWith yt yp pr = some (baseRecord yt yp (aucValue yt pr)) := by
  unfold evalWith
  rw [if_pos h, roc_auc_some yt pr h]
  rfl

/-- The guarded evaluation core always produces a record. -/
theorem evalWith_total (yt yp : List ℕ) (pr : List ℚ) :
    ∃ r, evalWith yt yp pr = some r := by
  by_cases h : 1 < yt.dedup.length
  · exact ⟨_, evalWith_multi yt yp pr h⟩
  · exact ⟨_, evalWith_single yt yp pr (by omega)⟩

/-- For binary truth vectors, more than one distinct value is the same
as both classes being present. -/
theorem binary_both_classes (yt : List ℕ)
    (hb : ∀ v ∈ yt, v = 0 ∨ v = 1) :
    1 < yt.dedup.length ↔ (0 ∈ yt ∧ 1 ∈ yt) := by
  constructor
  · intro h
    rcases hd : yt.dedup with _ | ⟨a, _ | ⟨b, t⟩⟩
    · rw [hd] at h; simp at h
    · rw [hd] at h; simp at h
    · have hnd : yt.dedup.Nodup := List.nodup_dedup yt
      rw [hd] at hnd
      have hab : a ≠ b := by
        intro he
        subst he
        exact (List.nodup_cons.mp hnd).1 (List.mem_cons_self a t)
      have haty : a ∈ yt := by
        have : a ∈ yt.dedup := by rw [hd]; exact List.mem_cons_self _ _
        exact List.mem_dedup.mp this
      have hbty : b ∈ yt := by
        have : b ∈ yt.dedup := by rw [hd]; simp
        exact List.mem_dedup.mp this
      rcases hb a haty with ha | ha <;> rcases hb b hbty with hc | hc
      · exact absurd (ha.trans hc.symm) hab
      · subst ha; subst hc; exact ⟨haty, hbty⟩
      · subst ha; subst hc; exact ⟨hbty, haty⟩
      · exact absurd (ha.trans hc.symm) hab
  · rintro ⟨h0, h1⟩
    have h0d : (0 : ℕ) ∈ yt.dedup := List.mem_dedup.mpr h0
    have h1d : (1 : ℕ) ∈ yt.dedup := List.mem_dedup.mpr h1
    rcases hd : yt.dedup with _ | ⟨a, _ | ⟨b, t⟩⟩
    · rw [hd] at h0d; simp at h0d
    · rw [hd] at h0d h1d
      simp at h0d h1d
      omega
    · simp

/-- With no positive prediction the true-positive and false-positive
counts are zero. -/
theorem tp_fp_zero_of_no_pos_pred (yt yp : List ℕ)
    (h : ∀ v ∈ yp, v ≠ 1) :
    tpCount yt yp = 0 ∧ fpCount yt yp = 0 := by
  constructor
  · unfold tpCount
    rw [List.countP_eq_zero]
    intro q hq
    have hv := h q.2 (List.of_mem_zip hq).2
    simp only [Bool.and_eq_true, beq_iff_eq]
    rintro ⟨-, h2⟩
    exact hv h2
  · unfold fpCount
    rw [List.countP_eq_zero]
    intro q hq
    have hv := h q.2 (List.of_mem_zip hq).2
    simp only [Bool.and_eq_true, beq_iff_eq, bne_iff_ne]
    rintro ⟨-, h2⟩
    exact hv h2

/-- With no positive truth label the true-positive and false-negative
counts are zero. -/
theorem tp_fn_zero_of_no_pos_label (yt yp : List ℕ)
    (h : ∀ v ∈ yt, v ≠ 1) :
    tpCount yt yp = 0 ∧ fnCount yt yp = 0 := by
  constructor
  · unfold tpCount
    rw [List.countP_eq_zero]
    intro q hq
    have hv := h q.1 (List.of_mem_zip hq).1
    simp only [Bool.and_eq_true, beq_iff_eq]
    rintro ⟨h1, -⟩
    exact hv h1
  · unfold fnCount
    rw [List.countP_eq_zero]
    intro q hq
    have hv := h q.1 (List.of_mem_zip hq).1
    simp only [Bool.and_eq_true, beq_iff_eq, bne_iff_ne]
    rintro ⟨h1, -⟩
    exact hv h1

/-- Once the true-positive count is zero, precision, recall and F1 are
all zero, whichever branch of the zero-division guard fires. -/
theorem metrics_zero_of_tp_zero (yt yp : List ℕ)
    (htp : tpCount yt yp = 0) :
    precision_score yt yp = 0 ∧ recall_score yt yp = 0 ∧
      f1_score yt yp = 0 := by
  unfold precision_score recall_score f1_score
  rw [htp]
  refine ⟨?_, ?_, ?_⟩ <;> split <;> simp

/-- The argmax fold keeps an element of the candidate pool (the start
element or a list element) whose score dominates the start element and
every list element. -/
theorem foldl_argmax_spec (score : XGBParams → ℚ) (cs : List XGBParams)
    (a : XGBParams) :
    (cs.foldl (fun b d => if score b < score d then d else b) a = a ∨
      cs.foldl (fun b d => if score b < score d then d else b) a ∈ cs) ∧
    score a ≤
      score (cs.foldl (fun b d => if score b < score d then d else b) a) ∧
    ∀ d ∈ cs,
      score d ≤
        score (cs.foldl (fun b d => if score b < score d then d else b) a) := by
  induction cs generalizing a with
  | nil => simp
  | cons c t ih =>
      simp only [List.foldl_cons]
      by_cases hac : score a < score c
      · rw [if_pos hac]
        obtain ⟨ih1, ih2, ih3⟩ := ih c
        refine ⟨?_, le_trans (le_of_lt hac) ih2, ?_⟩
        · rcases ih1 with he | he
          · right; rw [he]; exact List.mem_cons_self c t
          · right; exact List.mem_cons_of_mem c he
        · intro d hd
          rcases List.mem_cons.mp hd with rfl | hdt
          · exact ih2
          · exact ih3 d hdt
      · rw [if_neg hac]
        obtain ⟨ih1, ih2, ih3⟩ := ih a
        refine ⟨?_, ih2, ?_⟩
        · rcases ih1 with he | he
          · left; exact he
          · right; exact List.mem_cons_of_mem c he
        · intro d hd
          rcases List.mem_cons.mp hd with rfl | hdt
          · exact le_trans (le_of_not_lt hac) ih2
          · exact ih3 d hdt

/-- The GridSearchCV selection returns a member of the grid whose score
dominates every candidate of the grid. -/
theorem selectBest_spec (score : XGBParams → ℚ) (grid : List XGBParams)
    (c : XGBParams) (h : selectBest score grid = some c) :
    c ∈ grid ∧ ∀ d ∈ grid, score d ≤ score c := by
  cases grid with
  | nil => simp [selectBest] at h
  | cons a t =>
      simp only [selectBest, Option.some.injEq] at h
      obtain ⟨h1, h2, h3⟩ := foldl_argmax_spec score t a
      rw [h] at h1 h2 h3
      constructor
      · rcases h1 with he | he
        · rw [he]; exact List.mem_cons_self a t
        · exact List.mem_cons_of_mem a he
      · intro d hd
        rcases List.mem_cons.mp hd with rfl | hdt
        · exact h2
        · exact h3 d hdt

/-- A GridSearchCV fit on a nonempty grid reports exactly one winning
combination, a member of the grid scoring at least every candidate,
and its final model is the black-box refit on the full training
partition with that combination. -/
theorem gridSearchFit_spec (grid : List XGBParams)
    (score : XGBParams → ℚ) (X : List (List ℚ)) (y : List ℕ)
    (hne : grid ≠ []) :
    ∃ out, gridSearchFit grid score X y = some out ∧
      out.best_params ∈ grid ∧
      (∀ c ∈ grid, score c ≤ score out.best_params) ∧
      out.best_estimator = fitXGB out.best_params X y := by
  cases grid with
  | nil => exact absurd rfl hne
  | cons a t =>
      have hsel : selectBest score (a :: t) =
          some (t.foldl (fun b d => if score b < score d then d else b) a) :=
        rfl
      obtain ⟨hmem, hdom⟩ := selectBest_spec score (a :: t) _ hsel
      exact ⟨⟨_, fitXGB _ X y⟩, by rw [gridSearchFit, hsel]; rfl,
        hmem, hdom, rfl⟩

/-- The main.py column check succeeds exactly when no required column
is missing. -/
theorem mainColumnsOk_iff (cols : List String) :
    mainColumnsOk cols = true ↔ missingCols cols = [] := by
  unfold mainColumnsOk missingCols required_cols
  rw [List.filter_eq_nil_iff]
  simp only [Bool.and_eq_true, List.all_eq_true, List.mem_append,
    List.mem_singleton, Bool.not_eq_true, Bool.not_eq_eq_eq_not,
    Bool.not_true]
  constructor
  · rintro ⟨hf, ht⟩ a ha
    rcases ha with ha | ha
    · simpa using hf a ha
    · subst ha; simpa using ht
  · intro h
    constructor
    · intro a ha
      have := h a (Or.inl ha)
      simpa using this
    · have := h target_col (Or.inr rfl)
      simpa using this

/-! ## The claims -/

/-- Claim C1, counterexample: the claim asserts that every evaluation
on a single-class test partition reports area-under-ROC 0 without
error, but the evaluate helper of src/app.py calls roc_auc_score
unguarded, and on the all-positive truth vector the call raises the
sklearn single-class ValueError (modelled by none) instead of
producing a record. -/
theorem C1_app_single_class_raises :
    appEvaluate ("SVM") [1, 1] [1, 1] [0, 0] = none := by decide

/-- Claim C1 (amended): in the src/main.py variant, evaluate_model on a
binary test partition never raises; when only one class is present the
record carries area-under-ROC exactly 0, and when both classes are
present it carries the ROC-AUC statistic of the positive-class
probability vector of the model.  In the src/app.py variant the same
single-class evaluation raises. -/
theorem C1_single_class_auc (m : Classifier) (Xt : List (List ℚ))
    (yt yp : List ℕ) (pr : List ℚ)
    (hb : ∀ v ∈ yt, v = 0 ∨ v = 1) :
    (¬ (0 ∈ yt ∧ 1 ∈ yt) →
      evaluate_model m Xt yt = some (baseRecord yt (m.predict Xt) 0)) ∧
    ((0 ∈ yt ∧ 1 ∈ yt) →
      evaluate_model m Xt yt =
        some (baseRecord yt (m.predict Xt) (aucValue yt (probVec m Xt)))) ∧
    (¬ (0 ∈ yt ∧ 1 ∈ yt) → ∀ name, appEvaluate name yt yp pr = none) := by
  have hiff := binary_both_classes yt hb
  refine ⟨?_, ?_, ?_⟩
  · intro h
    have hle : yt.dedup.length ≤ 1 := by
      by_contra hh
      push_neg at hh
      exact h (hiff.mp hh)
    exact evalWith_single _ _ _ hle
  · intro h
    exact evalWith_multi _ _ _ (hiff.mpr h)
  · intro h name
    have hle : yt.dedup.length ≤ 1 := by
      by_contra hh
      push_neg at hh
      exact h (hiff.mp hh)
    unfold appEvaluate
    rw [roc_auc_none yt pr hle]
    rfl

/-- Witness for the amended C1 at a concrete single-class input. -/
theorem C1_single_class_auc_witness :
    evaluate_model allOnesClassifier [[2]] [1] =
      some (baseRecord [1] (allOnesClassifier.predict [[2]]) 0) :=
  (C1_single_class_auc allOnesClassifier [[2]] [1] [1] [0]
    (by decide)).1 (by decide)

/-- Claim C2, counterexample: the claim asserts that an
already-numeric target column passes through unchanged, but the map
call of src/app.py line 59 runs unconditionally, and on the numeric
column holding 0 and 1 it produces two nulls rather than the original
values. -/
theorem C2_numeric_target_nulled :
    appMapTarget (TargetColumn.numCol [0, 1]) = [none, none] ∧
    appMapTarget (TargetColumn.numCol [0, 1]) ≠ [some 0, some 1] := by
  constructor
  · rfl
  · decide

/-- Claim C2 (amended): the fixed assignment No to 0 and Yes to 1 is
applied to non-numeric target columns in both variants; only the
src/main.py variant passes an already-numeric target column through
unchanged and null-free, while src/app.py maps every numeric value to
null. -/
theorem C2_target_mapping (vs : List ℚ) (ss : List String) :
    mainMapTarget (TargetColumn.numCol vs) = vs.map some ∧
    (∀ o ∈ mainMapTarget (TargetColumn.numCol vs), o ≠ none) ∧
    mainMapTarget (TargetColumn.objCol ss) = ss.map yesNoMap ∧
    appMapTarget (TargetColumn.objCol ss) = ss.map yesNoMap ∧
    yesNoMap ("No") = some 0 ∧ yesNoMap ("Yes") = some 1 ∧
    (∀ o ∈ appMapTarget (TargetColumn.numCol vs), o = none) := by
  refine ⟨rfl, ?_, rfl, ?_, rfl, rfl, ?_⟩
  · intro o ho
    simp only [mainMapTarget, List.mem_map] at ho
    rcases ho with ⟨q, -, rfl⟩
    simp
  · simp only [appMapTarget, cellsOf, List.map_map]
    rfl
  · intro o ho
    simp only [appMapTarget, cellsOf, List.map_map, List.mem_map] at ho
    rcases ho with ⟨q, -, rfl⟩
    rfl

/-- Claim C3, counterexample: with exactly the feature column DSRI
absent, the src/main.py variant halts, but its error message names all
nine required columns, not exactly the one missing column. -/
theorem C3_message_not_exact :
    missingCols colsMissingDSRI = ["DSRI"] ∧
    mainPipeline colsMissingDSRI [] [] 0 = .halted mainErrorNames ∧
    mainErrorNames ≠ ["DSRI"] := by
  refine ⟨by decide, by decide, by decide⟩

/-- Claim C3 (amended): for every upload missing at least one required
column, both variants halt before any split, scale or training step;
the src/app.py message names the missing feature columns (or the
target when only the target is missing), while the src/main.py message
always names all nine required columns.  With nothing missing both
variants proceed to the split. -/
theorem C3_validator_halts (cols : List String) (X : List (List ℚ))
    (y : List ℕ) (t : ℚ) :
    (missingCols cols ≠ [] →
      mainPipeline cols X y t = .halted mainErrorNames ∧
      appPipeline cols X y t = .error (appErrorNames cols)) ∧
    (missingCols cols = [] →
      mainPipeline cols X y t = .proceeded (splitStage X y t) ∧
      appPipeline cols X y t = .ok (splitStage X y t)) := by
  constructor
  · intro h
    have hok : mainColumnsOk cols = false := by
      rcases Bool.eq_false_or_eq_true (mainColumnsOk cols) with ht | hf
      · exact absurd ((mainColumnsOk_iff cols).mp ht) h
      · exact hf
    have hemp : (missingCols cols).isEmpty = false := by
      rcases Bool.eq_false_or_eq_true ((missingCols cols).isEmpty) with ht | hf
      · exact absurd (List.isEmpty_iff.mp ht) h
      · exact hf
    constructor
    · unfold mainPipeline
      rw [hok]
      rfl
    · unfold appPipeline
      rw [hemp]
      rfl
  · intro h
    have hok : mainColumnsOk cols = true := (mainColumnsOk_iff cols).mpr h
    have hemp : (missingCols cols).isEmpty = true := List.isEmpty_iff.mpr h
    constructor
    · unfold mainPipeline
      rw [hok]
      rfl
    · unfold appPipeline
      rw [hemp]
      rfl

/-- Claim C4 (confirmed): the scaler is test-blind.  The fitted state
of the scaling block is a function of the training partition alone (two
runs with equal training partitions and different test partitions fit
identical states), and the test features are transformed with exactly
that fitted state, unmodified. -/
theorem C4_scaler_test_blind (Xtr₁ Xtr₂ Xte₁ Xte₂ : List (List ℚ))
    (h : Xtr₁ = Xtr₂) :
    (scaleStage Xtr₁ Xte₁).scaler = (scaleStage Xtr₂ Xte₂).scaler ∧
    (scaleStage Xtr₁ Xte₁).scaler = fitScaler Xtr₁ ∧
    (scaleStage Xtr₁ Xte₁).testScaled =
      transformScaler (scaleStage Xtr₁ Xte₁).scaler Xte₁ := by
  subst h
  exact ⟨rfl, rfl, rfl⟩

/-- Witness for C4 at concrete partitions with differing test sets. -/
theorem C4_scaler_test_blind_witness :
    (scaleStage [[1], [2]] [[3]]).scaler =
      (scaleStage [[1], [2]] [[4]]).scaler ∧
    (scaleStage [[1], [2]] [[3]]).scaler = fitScaler [[1], [2]] ∧
    (scaleStage [[1], [2]] [[3]]).testScaled =
      transformScaler (scaleStage [[1], [2]] [[3]]).scaler [[3]] :=
  C4_scaler_test_blind [[1], [2]] [[1], [2]] [[3]] [[4]] rfl

/-- Claim C5 (confirmed): the split is deterministic.  Both files call
the split with the literal seed 42, and any two executions of the
split stage on the same dataset and test fraction produce the same
train and test partitions, rows and order included. -/
theorem C5_split_deterministic (X : List (List ℚ)) (y : List ℕ) (t : ℚ)
    (r₁ r₂ : SplitResult) (h₁ : r₁ = splitStage X y t)
    (h₂ : r₂ = splitStage X y t) :
    r₁ = r₂ ∧ r₁ = trainTestSplit X y t 42 := by
  subst h₁
  subst h₂
  exact ⟨rfl, rfl⟩

/-- Witness for C5: two executions on a concrete dataset. -/
theorem C5_split_deterministic_witness :
    splitStage [[1], [2]] [0, 1] 0 = splitStage [[1], [2]] [0, 1] 0 ∧
    splitStage [[1], [2]] [0, 1] 0 = trainTestSplit [[1], [2]] [0, 1] 0 42 :=
  C5_split_deterministic [[1], [2]] [0, 1] 0 _ _ rfl rfl

/-- Claim C6 (confirmed): each grid holds exactly the 8 combinations of
its 2 by 2 by 2 parameter grid, the search is configured with 3-fold
cross-validation scored by roc_auc, the selection returns exactly one
combination whose score dominates every candidate, and the reported
final model is the refit on the full training partition with the
winning combination. -/
theorem C6_grid_search (score : XGBParams → ℚ) (X : List (List ℚ))
    (y : List ℕ) :
    appParamGrid.length = 8 ∧ mainParamGrid.length = 8 ∧
    appGridConfig.cv = 3 ∧ appGridConfig.scoring = "roc_auc" ∧
    mainGridConfig.cv = 3 ∧ mainGridConfig.scoring = "roc_auc" ∧
    (∃ out, gridSearchFit appParamGrid score X y = some out ∧
      out.best_params ∈ appParamGrid ∧
      (∀ c ∈ appParamGrid, score c ≤ score out.best_params) ∧
      out.best_estimator = fitXGB out.best_params X y) ∧
    (∃ out, gridSearchFit mainParamGrid score X y = some out ∧
      out.best_params ∈ mainParamGrid ∧
      (∀ c ∈ mainParamGrid, score c ≤ score out.best_params) ∧
      out.best_estimator = fitXGB out.best_params X y) := by
  refine ⟨rfl, rfl, rfl, rfl, rfl, rfl, ?_, ?_⟩
  · exact gridSearchFit_spec appParamGrid score X y (by
      intro h
      simp [appParamGrid, gridCandidates] at h)
  · exact gridSearchFit_spec mainParamGrid score X y (by
      intro h
      simp [mainParamGrid, gridCandidates] at h)

/-- Claim C7 (confirmed): the model-to-data policy.  In both variants
every family is evaluated on the same kind of partition it was fit on,
and the partition is the scaled one exactly for the margin-based SVM
and the distance-based KNN; Naive Bayes, AdaBoost and XGBoost consume
the raw partitions. -/
theorem C7_scaled_raw_dispatch (f : Family) :
    appFitEval f = mainFitEval f ∧
    (appFitEval f).evalOn = (appFitEval f).fitOn ∧
    ((appFitEval f).fitOn = DataPart.scaledPart ↔
      f = Family.svm ∨ f = Family.knn) := by
  cases f <;> decide

/-- Claim C8 (confirmed): every metric record either variant actually
produces has its accuracy, precision, recall, F1 and area-under-ROC in
the closed unit interval. -/
theorem C8_metrics_unit_interval (m : Classifier) (Xt : List (List ℚ))
    (yt yp : List ℕ) (pr : List ℚ) (name : String) :
    (∀ r, evaluate_model m Xt yt = some r → recordUnit r) ∧
    (∀ r, appEvaluate name yt yp pr = some r → appRecordUnit r) := by
  constructor
  · intro r h
    unfold evaluate_model evalWith at h
    split at h
    · rename_i hgt
      rw [roc_auc_some _ _ hgt] at h
      simp only [Option.map_some', Option.some.injEq] at h
      subst h
      exact ⟨accuracy_unit _ _, precision_unit _ _, recall_unit _ _,
        f1_unit _ _, aucValue_unit _ _⟩
    · simp only [Option.some.injEq] at h
      subst h
      exact ⟨accuracy_unit _ _, precision_unit _ _, recall_unit _ _,
        f1_unit _ _, le_refl 0, zero_le_one⟩
  · intro r h
    unfold appEvaluate roc_auc_score at h
    split at h
    · simp at h
    · simp only [Option.map_some', Option.some.injEq] at h
      subst h
      exact ⟨accuracy_unit _ _, precision_unit _ _, recall_unit _ _,
        f1_unit _ _, aucValue_unit _ _⟩

/-- Claim C9 (confirmed): with no retained best model the SHAP section
renders exactly the visible warning and no attribution chart, whatever
the checkbox state, and the section is a total function (the script
does not crash); with a retained tuned model and the view requested it
renders exactly the two attribution charts built from that model, and
the model the tuning block retains is the grid-search best
estimator. -/
theorem C9_shap_guard (b : Bool) (m : FittedXGB)
    (out : GridSearchOutput) :
    shapSection none b = [UIElem.warnMsg shapWarning] ∧
    (∀ e ∈ shapSection none b, ∀ k mm, e ≠ UIElem.shapChart k mm) ∧
    shapSection (some m) true =
      [UIElem.shapChart ("bar") m, UIElem.shapChart ("beeswarm") m] ∧
    shapSection (sessionAfterTuning out) true =
      [UIElem.shapChart ("bar") out.best_estimator,
        UIElem.shapChart ("beeswarm") out.best_estimator] := by
  refine ⟨rfl, ?_, rfl, rfl⟩
  intro e he k mm
  simp only [shapSection, List.mem_singleton] at he
  subst he
  intro hcontra
  exact UIElem.noConfusion hcontra

/-- Claim C10 (confirmed): the src/main.py evaluation is total in the
zero-denominator cases.  With no positive prediction, and likewise with
no positive test label, precision, recall and F1 are defined and equal
0; when the model lacks a probability method the evaluation runs on the
all-zeros probability vector; and evaluate_model always produces a
record. -/
theorem C10_total_zero_division (m : Classifier) (Xt : List (List ℚ))
    (yt : List ℕ) :
    ((∀ v ∈ m.predict Xt, v ≠ 1) →
      precision_score yt (m.predict Xt) = 0 ∧
      recall_score yt (m.predict Xt) = 0 ∧
      f1_score yt (m.predict Xt) = 0) ∧
    ((∀ v ∈ yt, v ≠ 1) →
      precision_score yt (m.predict Xt) = 0 ∧
      recall_score yt (m.predict Xt) = 0 ∧
      f1_score yt (m.predict Xt) = 0) ∧
    (m.predictProba = none →
      evaluate_model m Xt yt =
        evalWith yt (m.predict Xt)
          (List.replicate (m.predict Xt).length 0)) ∧
    (∃ r, evaluate_model m Xt yt = some r) := by
  refine ⟨?_, ?_, ?_, ?_⟩
  · intro h
    exact metrics_zero_of_tp_zero _ _ (tp_fp_zero_of_no_pos_pred yt _ h).1
  · intro h
    exact metrics_zero_of_tp_zero _ _ (tp_fn_zero_of_no_pos_label yt _ h).1
  · intro h
    unfold evaluate_model probVec
    rw [h]
  · exact evalWith_total yt (m.predict Xt) (probVec m Xt)

end EarningsManip
